import Mathlib

/-!
Verification development for the giveaway tracker bot (src/bot.py).

The SQLite tables are embedded as Lean lists kept in row-insertion order
(rowid order).  Each SQL helper of the source becomes a pure function on a
`DB` record; the slash-command handlers' engine logic (close, reroll,
delete, manual winner, win adjustment, the join eligibility gate) becomes
functions from `DB` to `DB` together with the value the handler observes.

Modelling conventions, fixed once here:
* Timestamps (`ends_at`), `message_id` and all rendering-only data are
  dropped: no modelled operation reads them.
* `random.sample` is a parameter `sample : List Nat → Nat → List Nat`;
  `SampleOk` states its documented contract (result size `min k |pool|`,
  no duplicates, members of the pool).  `takeSample` is one concrete
  instance used for witnesses.
* Iteration order of a Python `set` built from duplicate-free rows, and
  SQL row order without ORDER BY, are both modelled as stored row order.
-/

namespace GiveawayBot

/-- Giveaway status column: "running" | "ended" (bot.py line 43). -/
inductive GStatus
  | running
  | ended
deriving DecidableEq, Repr

/-- Row of the giveaways table (bot.py lines 33-43, 53-63); `message_id`
and `ends_at` are omitted, no modelled operation reads them. -/
structure Giveaway where
  id : Nat
  guildId : Nat
  channelId : Nat
  hostId : Nat
  prize : String
  winnersCount : Nat
  status : GStatus
deriving DecidableEq, Repr

/-- The whole SQLite database (bot.py lines 46-110).  `nextId` models the
AUTOINCREMENT counter of the giveaways table.  Entrant and winner rows are
pairs (giveaway_id, user_id); win_counts rows are (guild_id, user_id, wins);
vouch and vouch_block rows are (guild_id, user_id, giveaway_id). -/
structure DB where
  giveaways : List Giveaway
  nextId : Nat
  entrants : List (Nat × Nat)
  winners : List (Nat × Nat)
  winCounts : List (Nat × Nat × Nat)
  vouches : List (Nat × Nat × Nat)
  vouchBlocks : List (Nat × Nat × Nat)
deriving DecidableEq, Repr

/-- SELECT * FROM giveaways WHERE id = ? (fetch_giveaway, lines 379-388). -/
def fetch_giveaway (db : DB) (gid : Nat) : Option Giveaway :=
  db.giveaways.find? (fun g => decide (g.id = gid))

/-- SELECT user_id FROM entrants WHERE giveaway_id = ? (get_entrants, lines 175-182). -/
def get_entrants (db : DB) (gid : Nat) : List Nat :=
  (db.entrants.filter (fun p => decide (p.1 = gid))).map (fun p => p.2)

/-- SELECT user_id FROM winners WHERE giveaway_id = ? (get_winners, lines 193-200). -/
def get_winners (db : DB) (gid : Nat) : List Nat :=
  (db.winners.filter (fun p => decide (p.1 = gid))).map (fun p => p.2)

/-- INSERT OR IGNORE INTO winners, one row (used at lines 188, 300, 477). -/
def insertWinnerRows (ws : List (Nat × Nat)) (gid uid : Nat) : List (Nat × Nat) :=
  if (gid, uid) ∈ ws then ws else ws ++ [(gid, uid)]

/-- set_winners (lines 184-191): executemany INSERT OR IGNORE. -/
def set_winners (db : DB) (gid : Nat) (uids : List Nat) : DB :=
  { db with winners := uids.foldl (fun ws u => insertWinnerRows ws gid u) db.winners }

/-- DELETE FROM winners for the given users (remove_winners, lines 214-222). -/
def remove_winners (db : DB) (gid : Nat) (uids : List Nat) : DB :=
  { db with winners := db.winners.filter (fun p => decide (¬(p.1 = gid ∧ p.2 ∈ uids))) }

/-- Test for an existing win_counts row for (guild, user). -/
def hasCountRow (rows : List (Nat × Nat × Nat)) (guild uid : Nat) : Bool :=
  rows.any (fun r => decide (r.1 = guild ∧ r.2.1 = uid))

/-- INSERT INTO win_counts VALUES (?, ?, 1) ON CONFLICT DO UPDATE SET
wins = wins + 1, one row (used at lines 205-211, 305-311, 480-487). -/
def incrementRows (rows : List (Nat × Nat × Nat)) (guild uid : Nat) :
    List (Nat × Nat × Nat) :=
  if hasCountRow rows guild uid then
    rows.map (fun r =>
      if r.1 = guild ∧ r.2.1 = uid then (r.1, r.2.1, r.2.2 + 1) else r)
  else rows ++ [(guild, uid, 1)]

/-- increment_win_counts (lines 202-212): executemany upsert. -/
def increment_win_counts (db : DB) (guild : Nat) (uids : List Nat) : DB :=
  { db with winCounts := uids.foldl (fun rs u => incrementRows rs guild u) db.winCounts }

/-- UPDATE win_counts SET wins = wins - 1 WHERE guild_id = ? AND user_id = ?
AND wins > 0, one row (used at lines 228-231, 364-367, 495-498). -/
def decrementRows (rows : List (Nat × Nat × Nat)) (guild uid : Nat) :
    List (Nat × Nat × Nat) :=
  rows.map (fun r =>
    if r.1 = guild ∧ r.2.1 = uid ∧ r.2.2 ≠ 0 then (r.1, r.2.1, r.2.2 - 1) else r)

/-- DELETE FROM win_counts WHERE guild_id = ? AND wins <= 0 (lines 233-236,
369-372, 499-502). -/
def pruneGuildZeros (rows : List (Nat × Nat × Nat)) (guild : Nat) :
    List (Nat × Nat × Nat) :=
  rows.filter (fun r => decide (¬(r.1 = guild ∧ r.2.2 = 0)))

/-- decrement_win_counts (lines 224-237): executemany guarded decrement,
then guild-wide prune of zero rows. -/
def decrement_win_counts (db : DB) (guild : Nat) (uids : List Nat) : DB :=
  { db with winCounts :=
      pruneGuildZeros (uids.foldl (fun rs u => decrementRows rs guild u) db.winCounts) guild }

/-- SELECT wins FROM win_counts WHERE guild_id = ? AND user_id = ?, with
row[0] if row else 0 (JoinView.join, lines 572-579). -/
def lookupWins (rows : List (Nat × Nat × Nat)) (guild uid : Nat) : Nat :=
  match rows.find? (fun r => decide (r.1 = guild ∧ r.2.1 = uid)) with
  | some r => r.2.2
  | none => 0

/-- The stored win count of a (guild, user) pair, 0 when the row is absent. -/
def winsOf (db : DB) (guild uid : Nat) : Nat :=
  lookupWins db.winCounts guild uid

/-- SELECT COUNT(*) FROM vouches WHERE guild_id = ? AND user_id = ?
(JoinView.join, lines 582-589). -/
def vouchCountOf (db : DB) (guild uid : Nat) : Nat :=
  (db.vouches.filter (fun v => decide (v.1 = guild ∧ v.2.1 = uid))).length

/-- The eligibility gate of the Join button (JoinView.join, lines 566-598):
the entry attempt is rejected exactly when wins_count > vouch_count. -/
def joinEligible (db : DB) (guild uid : Nat) : Bool :=
  if vouchCountOf db guild uid < winsOf db guild uid then false else true

/-- UPDATE giveaways SET status = ? WHERE id = ? (set_giveaway_status,
lines 318-325): unconditional on the current status. -/
def set_giveaway_status (db : DB) (gid : Nat) (st : GStatus) : DB :=
  { db with giveaways :=
      db.giveaways.map (fun g => if g.id = gid then { g with status := st } else g) }

/-- adjust_win_for_gw (lines 460-505).  Returns False when the giveaway is
absent; change > 0 inserts the winner row (OR IGNORE) and increments the
win count; change < 0 deletes the winner row and performs the guarded
decrement plus guild-wide zero prune. -/
def adjust_win_for_gw (db : DB) (gid uid : Nat) (change : Int) : Bool × DB :=
  match fetch_giveaway db gid with
  | none => (false, db)
  | some g =>
    if 0 < change then
      (true, { db with
        winners := insertWinnerRows db.winners gid uid,
        winCounts := incrementRows db.winCounts g.guildId uid })
    else if change < 0 then
      (true, { db with
        winners := db.winners.filter (fun p => decide (¬(p.1 = gid ∧ p.2 = uid))),
        winCounts := pruneGuildZeros (decrementRows db.winCounts g.guildId uid) g.guildId })
    else (true, db)

/-- add_manual_giveaway_with_winner (lines 263-314): reuse the first
giveaway of the guild with the same prize, else insert a fresh ended
giveaway with winners_count 1; then INSERT OR IGNORE the winner row and
unconditionally increment the win count. -/
def add_manual_giveaway_with_winner (db : DB) (guild : Nat) (prize : String)
    (uid : Nat) : Nat × DB :=
  let found := db.giveaways.find? (fun g => decide (g.guildId = guild ∧ g.prize = prize))
  let gid := match found with
    | some g => g.id
    | none => db.nextId
  let db1 : DB := match found with
    | some _ => db
    | none =>
      { db with
        giveaways := db.giveaways ++
          [{ id := db.nextId, guildId := guild, channelId := 0, hostId := 0,
             prize := prize, winnersCount := 1, status := GStatus.ended }],
        nextId := db.nextId + 1 }
  (gid, { db1 with
    winners := insertWinnerRows db1.winners gid uid,
    winCounts := incrementRows db1.winCounts guild uid })

/-- delete_giveaway (lines 328-375): False when the row is absent;
otherwise delete vouches and vouch_blocks of the giveaway, delete the
giveaway row with its cascading entrant and winner rows, then apply the
guarded decrement for each previously read winner and prune zero rows of
the guild.  The source runs all statements inside one transaction. -/
def delete_giveaway (db : DB) (gid : Nat) : Bool × DB :=
  match fetch_giveaway db gid with
  | none => (false, db)
  | some g =>
    let winnersList := get_winners db gid
    (true, { db with
      giveaways := db.giveaways.filter (fun g2 => decide (¬(g2.id = gid))),
      entrants := db.entrants.filter (fun p => decide (¬(p.1 = gid))),
      winners := db.winners.filter (fun p => decide (¬(p.1 = gid))),
      vouches := db.vouches.filter (fun v => decide (¬(v.2.2 = gid))),
      vouchBlocks := db.vouchBlocks.filter (fun v => decide (¬(v.2.2 = gid))),
      winCounts :=
        pruneGuildZeros
          (winnersList.foldl (fun rs u => decrementRows rs g.guildId u) db.winCounts)
          g.guildId })

/-- close_giveaway (lines 627-638).  The first component is the winner
list the handler announces.  With entrants present it draws
min(winners_count, |pool|) users, stores them and increments their counts;
in every case it writes status ended, unconditionally.  The source builds
the pool as set(entrants); entrant rows are duplicate free, so the pool is
modelled as the entrant list itself. -/
def close_giveaway (sample : List Nat → Nat → List Nat) (db : DB)
    (g : Giveaway) : List Nat × DB :=
  let entrants := get_entrants db g.id
  if entrants.isEmpty then
    ([], set_giveaway_status db g.id GStatus.ended)
  else
    let k := min g.winnersCount entrants.length
    let ws := sample entrants k
    (ws,
     set_giveaway_status
       (increment_win_counts (set_winners db g.id ws) g.guildId ws)
       g.id GStatus.ended)

/-- Result surfaced by the reroll command handler (lines 883-963). -/
inductive RerollResult
  | notFound
  | notEnded
  | noPrevWinners
  | notAWinner
  | noEntrants
  | noEligiblePool
  | rerolled (removed added : List Nat)
deriving DecidableEq, Repr

/-- The removal-set computation of reroll (lines 899-906): the single
target user when given (none when not a recorded winner), otherwise the
last k previous winners where k = min(max(1, count or 1), |prev|). -/
def rerollTargets (prev : List Nat) (count : Option Int) (target : Option Nat) :
    Option (List Nat) :=
  match target with
  | some t => if t ∈ prev then some [t] else none
  | none =>
    let c : Int := match count with
      | none => 1
      | some c => if c = 0 then 1 else c
    let k := min (max 1 c).toNat prev.length
    some (prev.drop (prev.length - k))

/-- GWGroup.reroll, engine part (lines 883-926).  prev_winners is
list(set(get_winners(...))): the winner rows are duplicate free, so the
round-trip preserves membership, and the stored winner list stands in for
it here where only membership matters (the NotAWinner check and the pool
exclusion).  The order the round-trip actually presents — which decides
the removal slice — is hash order, not row order; it is modelled
separately by pySetList and rerollTargetsPy below.  The pool is
list(set(entrants) - set(prev_winners)), modelled as the entrant list
filtered by the previous winners. -/
def reroll (sample : List Nat → Nat → List Nat) (db : DB) (guild gid : Nat)
    (count : Option Int) (target : Option Nat) : RerollResult × DB :=
  match fetch_giveaway db gid with
  | none => (RerollResult.notFound, db)
  | some g =>
    if g.guildId ≠ guild then (RerollResult.notFound, db)
    else if g.status ≠ GStatus.ended then (RerollResult.notEnded, db)
    else
      let prev := get_winners db gid
      if prev.isEmpty then (RerollResult.noPrevWinners, db)
      else
        match rerollTargets prev count target with
        | none => (RerollResult.notAWinner, db)
        | some toRemove =>
          let db2 := decrement_win_counts (remove_winners db gid toRemove) g.guildId toRemove
          let entrants := get_entrants db2 gid
          if entrants.isEmpty then (RerollResult.noEntrants, db2)
          else
            let pool := entrants.filter (fun u => decide (u ∉ prev))
            if pool.isEmpty then (RerollResult.noEligiblePool, db2)
            else
              let k := min pool.length toRemove.length
              let nw := sample pool k
              (RerollResult.rerolled toRemove nw,
               increment_win_counts (set_winners db2 gid nw) g.guildId nw)

/-- SELECT COUNT of winner rows joined with giveaways of the guild for one
user (user_wins, lines 417-431): the number of winner records of the user
across the guild's giveaways. -/
def user_wins_count (db : DB) (guild uid : Nat) : Nat :=
  (db.winners.filter (fun p =>
    decide (p.2 = uid) &&
      (match fetch_giveaway db p.1 with
       | some g => decide (g.guildId = guild)
       | none => false))).length

/-- Primary-key constraints of the schema: entrant and winner rows are
unique per (giveaway, user), win_counts rows unique per (guild, user),
giveaway ids unique. -/
def WF (db : DB) : Prop :=
  db.entrants.Nodup ∧ db.winners.Nodup ∧
  (db.winCounts.map (fun r => (r.1, r.2.1))).Nodup ∧
  (db.giveaways.map (fun g => g.id)).Nodup

instance (db : DB) : Decidable (WF db) := by
  unfold WF; infer_instance

/-- Contract of random.sample(pool, k) as the source relies on it: on a
duplicate-free pool the result has min k |pool| elements, is duplicate
free, and is drawn from the pool. -/
def SampleOk (sample : List Nat → Nat → List Nat) : Prop :=
  ∀ pool k, pool.Nodup →
    (sample pool k).length = min k pool.length ∧
    (sample pool k).Nodup ∧
    ∀ u, u ∈ sample pool k → u ∈ pool

/-- One concrete sampler satisfying the contract, used by witnesses. -/
def takeSample (pool : List Nat) (k : Nat) : List Nat :=
  pool.take k

theorem takeSample_ok : SampleOk takeSample := by
  intro pool k hnd
  refine ⟨by simp [takeSample, List.length_take], ?_, ?_⟩
  · exact (List.take_sublist k pool).nodup hnd
  · intro u hu
    exact List.mem_of_mem_take hu

/-! ### Helper lemmas about the row-level operations -/

/-- find? commutes with a map that preserves the tested predicate. -/
theorem find?_map_keep {α : Type} (f : α → α) (p : α → Bool)
    (hf : ∀ r, p (f r) = p r) :
    ∀ l : List α, (l.map f).find? p = (l.find? p).map f := by
  intro l
  induction l with
  | nil => rfl
  | cons r rest ih =>
    by_cases h : p r = true
    · rw [List.map_cons, List.find?_cons_of_pos _ ((hf r).trans h),
        List.find?_cons_of_pos _ h, Option.map_some']
    · have h' : ¬ p (f r) = true := by rw [hf r]; exact h
      rw [List.map_cons, List.find?_cons_of_neg _ h', List.find?_cons_of_neg _ h, ih]

/-- The guarded decrement keeps the tested key fields of every row. -/
theorem decrementRows_keeps_key (guild uid guild2 uid2 : Nat) :
    ∀ r : Nat × Nat × Nat,
      (decide (((fun r : Nat × Nat × Nat =>
          if r.1 = guild ∧ r.2.1 = uid ∧ r.2.2 ≠ 0 then (r.1, r.2.1, r.2.2 - 1) else r) r).1 = guild2 ∧
        ((fun r : Nat × Nat × Nat =>
          if r.1 = guild ∧ r.2.1 = uid ∧ r.2.2 ≠ 0 then (r.1, r.2.1, r.2.2 - 1) else r) r).2.1 = uid2)) =
      decide (r.1 = guild2 ∧ r.2.1 = uid2) := by
  intro r
  by_cases h : r.1 = guild ∧ r.2.1 = uid ∧ r.2.2 ≠ 0 <;> simp [h]

/-- The guarded decrement lowers the looked-up value of its own key by one. -/
theorem lookupWins_decrementRows_self (rows : List (Nat × Nat × Nat)) (guild uid : Nat) :
    lookupWins (decrementRows rows guild uid) guild uid = lookupWins rows guild uid - 1 := by
  unfold lookupWins decrementRows
  rw [find?_map_keep _ _ (decrementRows_keeps_key guild uid guild uid)]
  cases hfind : rows.find? (fun r => decide (r.1 = guild ∧ r.2.1 = uid)) with
  | none => rfl
  | some r =>
    have hp := List.find?_some hfind
    have hkey : r.1 = guild ∧ r.2.1 = uid := by simpa using hp
    by_cases hz : r.2.2 = 0
    · simp [Option.map_some', hkey, hz]
    · simp [Option.map_some', hkey, hz]

/-- The guarded decrement leaves every other key's looked-up value unchanged. -/
theorem lookupWins_decrementRows_other (rows : List (Nat × Nat × Nat))
    (guild uid guild2 uid2 : Nat) (h : ¬(guild2 = guild ∧ uid2 = uid)) :
    lookupWins (decrementRows rows guild uid) guild2 uid2 = lookupWins rows guild2 uid2 := by
  unfold lookupWins decrementRows
  rw [find?_map_keep _ _ (decrementRows_keeps_key guild uid guild2 uid2)]
  cases hfind : rows.find? (fun r => decide (r.1 = guild2 ∧ r.2.1 = uid2)) with
  | none => rfl
  | some r =>
    have hkey : r.1 = guild2 ∧ r.2.1 = uid2 := by simpa using List.find?_some hfind
    have hguard : ¬(r.1 = guild ∧ r.2.1 = uid ∧ r.2.2 ≠ 0) := by
      rintro ⟨h1, h2, -⟩
      exact h ⟨hkey.1 ▸ h1, hkey.2 ▸ h2⟩
    simp [Option.map_some', hguard]

/-- The upsert increment raises the looked-up value of its own key by one. -/
theorem lookupWins_incrementRows_self (rows : List (Nat × Nat × Nat)) (guild uid : Nat) :
    lookupWins (incrementRows rows guild uid) guild uid = lookupWins rows guild uid + 1 := by
  unfold incrementRows
  by_cases hhas : hasCountRow rows guild uid = true
  · have hkeep : ∀ r : Nat × Nat × Nat,
        (decide (((fun r : Nat × Nat × Nat =>
            if r.1 = guild ∧ r.2.1 = uid then (r.1, r.2.1, r.2.2 + 1) else r) r).1 = guild ∧
          ((fun r : Nat × Nat × Nat =>
            if r.1 = guild ∧ r.2.1 = uid then (r.1, r.2.1, r.2.2 + 1) else r) r).2.1 = uid)) =
        decide (r.1 = guild ∧ r.2.1 = uid) := by
      intro r
      by_cases h : r.1 = guild ∧ r.2.1 = uid <;> simp [h]
    rw [if_pos hhas]
    unfold hasCountRow at hhas
    unfold lookupWins
    rw [find?_map_keep _ _ hkeep]
    cases hfind : rows.find? (fun r => decide (r.1 = guild ∧ r.2.1 = uid)) with
    | none =>
      exfalso
      have := List.find?_eq_none.mp hfind
      obtain ⟨r, hr, hpr⟩ := List.any_eq_true.mp hhas
      exact this r hr hpr
    | some r =>
      have hkey : r.1 = guild ∧ r.2.1 = uid := by simpa using List.find?_some hfind
      simp [Option.map_some', hkey]
  · rw [if_neg hhas]
    unfold hasCountRow at hhas
    have hnone : rows.find? (fun r => decide (r.1 = guild ∧ r.2.1 = uid)) = none := by
      rw [List.find?_eq_none]
      intro r hr hpr
      exact hhas (List.any_eq_true.mpr ⟨r, hr, hpr⟩)
    unfold lookupWins
    rw [List.find?_append, hnone, Option.none_or]
    simp

/-- Lookup after the many-user guarded decrement: each listed user once,
everyone else untouched.  The user list must be duplicate free. -/
theorem lookupWins_decrementMany (guild : Nat) :
    ∀ (uids : List Nat) (rows : List (Nat × Nat × Nat)) (u : Nat), uids.Nodup →
      lookupWins (uids.foldl (fun rs v => decrementRows rs guild v) rows) guild u =
        (if u ∈ uids then lookupWins rows guild u - 1 else lookupWins rows guild u) := by
  intro uids
  induction uids with
  | nil => intro rows u _; simp
  | cons v rest ih =>
    intro rows u hnd
    have hnd' : rest.Nodup := hnd.of_cons
    rw [List.foldl_cons]
    rw [ih (decrementRows rows guild v) u hnd']
    by_cases hm : u ∈ rest
    · have huv : u ≠ v := fun h => (List.nodup_cons.mp hnd).1 (h ▸ hm)
      rw [if_pos hm, if_pos (List.mem_cons.mpr (Or.inr hm)),
        lookupWins_decrementRows_other rows guild v guild u (by intro h; exact huv h.2)]
    · by_cases huv : u = v
      · subst huv
        have : u ∉ (u :: rest) → False := fun h => h (List.mem_cons_self u rest)
        rw [if_neg hm, if_pos (List.mem_cons_self u rest), lookupWins_decrementRows_self]
      · rw [if_neg hm, if_neg (by simp [huv, hm]),
          lookupWins_decrementRows_other rows guild v guild u (by intro h; exact huv h.2)]

/-- Keys of the win_counts rows, in row order. -/
def countKeys (rows : List (Nat × Nat × Nat)) : List (Nat × Nat) :=
  rows.map (fun r => (r.1, r.2.1))

theorem countKeys_decrementRows (rows : List (Nat × Nat × Nat)) (guild uid : Nat) :
    countKeys (decrementRows rows guild uid) = countKeys rows := by
  unfold countKeys decrementRows
  rw [List.map_map]
  apply List.map_congr_left
  intro r _
  by_cases h : r.1 = guild ∧ r.2.1 = uid ∧ r.2.2 ≠ 0 <;> simp [h]

theorem countKeys_decrementMany (guild : Nat) :
    ∀ (uids : List Nat) (rows : List (Nat × Nat × Nat)),
      countKeys (uids.foldl (fun rs v => decrementRows rs guild v) rows) = countKeys rows := by
  intro uids
  induction uids with
  | nil => intro rows; rfl
  | cons v rest ih =>
    intro rows
    rw [List.foldl_cons, ih, countKeys_decrementRows]

/-- Pruning the zero rows of a guild never changes a looked-up win count,
because an absent row reads as zero.  Needs unique keys. -/
theorem lookupWins_pruneGuildZeros (guild : Nat) :
    ∀ rows : List (Nat × Nat × Nat), (countKeys rows).Nodup →
      ∀ guild2 u, lookupWins (pruneGuildZeros rows guild) guild2 u = lookupWins rows guild2 u := by
  intro rows
  induction rows with
  | nil => intro _ guild2 u; rfl
  | cons r rest ih =>
    intro hnd guild2 u
    have hkey : (r.1, r.2.1) ∉ countKeys rest ∧ (countKeys rest).Nodup := by
      have := hnd
      rw [countKeys, List.map_cons, List.nodup_cons] at this
      exact ⟨this.1, this.2⟩
    by_cases hp : r.1 = guild2 ∧ r.2.1 = u
    · by_cases hq : r.1 = guild ∧ r.2.2 = 0
      · have hrest : rest.find? (fun x => decide (x.1 = guild2 ∧ x.2.1 = u)) = none := by
          rw [List.find?_eq_none]
          intro x hx hpx
          have hxkey : x.1 = guild2 ∧ x.2.1 = u := by simpa using hpx
          apply hkey.1
          have : (x.1, x.2.1) ∈ countKeys rest := List.mem_map.mpr ⟨x, hx, rfl⟩
          rwa [hxkey.1, hxkey.2, ← hp.1, ← hp.2] at this
        have hrestf : (pruneGuildZeros rest guild).find?
            (fun x => decide (x.1 = guild2 ∧ x.2.1 = u)) = none := by
          rw [List.find?_eq_none]
          intro x hx hpx
          exact List.find?_eq_none.mp hrest x (List.mem_filter.mp hx).1 hpx
        have hdrop : pruneGuildZeros (r :: rest) guild = pruneGuildZeros rest guild := by
          unfold pruneGuildZeros
          exact List.filter_cons_of_neg (by simp only [decide_eq_true_eq, not_not]; exact hq)
        rw [hdrop]
        unfold lookupWins
        rw [hrestf, List.find?_cons_of_pos _ (by simpa using hp)]
        simp [hq.2]
      · have hkeep : pruneGuildZeros (r :: rest) guild = r :: pruneGuildZeros rest guild := by
          unfold pruneGuildZeros
          exact List.filter_cons_of_pos (by simp only [decide_eq_true_eq]; exact hq)
        rw [hkeep]
        unfold lookupWins
        rw [List.find?_cons_of_pos _ (by simpa using hp),
          List.find?_cons_of_pos _ (by simpa using hp)]
    · by_cases hq : r.1 = guild ∧ r.2.2 = 0
      · have hdrop : pruneGuildZeros (r :: rest) guild = pruneGuildZeros rest guild := by
          unfold pruneGuildZeros
          exact List.filter_cons_of_neg (by simp only [decide_eq_true_eq, not_not]; exact hq)
        rw [hdrop]
        have step := ih hkey.2 guild2 u
        rw [step]
        unfold lookupWins
        rw [List.find?_cons_of_neg _ (by simpa using hp)]
      · have hkeep : pruneGuildZeros (r :: rest) guild = r :: pruneGuildZeros rest guild := by
          unfold pruneGuildZeros
          exact List.filter_cons_of_pos (by simp only [decide_eq_true_eq]; exact hq)
        rw [hkeep]
        have step := ih hkey.2 guild2 u
        unfold lookupWins at step ⊢
        rw [List.find?_cons_of_neg _ (by simpa using hp),
          List.find?_cons_of_neg _ (by simpa using hp)]
        exact step

/-! ### Helper lemmas about entrant and winner rows -/

/-- Membership in the per-giveaway user list of a pair table. -/
theorem mem_snd_filter_fst {l : List (Nat × Nat)} {gid u : Nat} :
    u ∈ (l.filter (fun p => decide (p.1 = gid))).map (fun p => p.2) ↔ (gid, u) ∈ l := by
  constructor
  · intro h
    obtain ⟨p, hp, hu⟩ := List.mem_map.mp h
    obtain ⟨hmem, hfst⟩ := List.mem_filter.mp hp
    have : p = (gid, u) := by
      obtain ⟨a, b⟩ := p
      simp only [decide_eq_true_eq] at hfst
      cases hfst
      cases hu
      rfl
    rwa [this] at hmem
  · intro h
    exact List.mem_map.mpr ⟨(gid, u), List.mem_filter.mpr ⟨h, by simp⟩, rfl⟩

theorem mem_get_winners {db : DB} {gid u : Nat} :
    u ∈ get_winners db gid ↔ (gid, u) ∈ db.winners :=
  mem_snd_filter_fst

theorem mem_get_entrants {db : DB} {gid u : Nat} :
    u ∈ get_entrants db gid ↔ (gid, u) ∈ db.entrants :=
  mem_snd_filter_fst

/-- A duplicate-free pair table yields a duplicate-free per-giveaway user list. -/
theorem nodup_snd_filter_fst {l : List (Nat × Nat)} (h : l.Nodup) (gid : Nat) :
    ((l.filter (fun p => decide (p.1 = gid))).map (fun p => p.2)).Nodup := by
  apply (h.filter _).map_on
  intro x hx y hy hxy
  have hxf : x.1 = gid := by simpa using (List.mem_filter.mp hx).2
  have hyf : y.1 = gid := by simpa using (List.mem_filter.mp hy).2
  obtain ⟨a, b⟩ := x
  obtain ⟨c, d⟩ := y
  simp only at hxf hyf hxy
  rw [hxf, hyf, hxy]

theorem nodup_get_winners {db : DB} (h : db.winners.Nodup) (gid : Nat) :
    (get_winners db gid).Nodup :=
  nodup_snd_filter_fst h gid

theorem nodup_get_entrants {db : DB} (h : db.entrants.Nodup) (gid : Nat) :
    (get_entrants db gid).Nodup :=
  nodup_snd_filter_fst h gid

/-- Removing the rows of given users from a pair table, seen through the
per-giveaway user list, filters those users out. -/
theorem snd_filter_remove (gid : Nat) (uids : List Nat) :
    ∀ l : List (Nat × Nat),
      ((l.filter (fun p => decide (¬(p.1 = gid ∧ p.2 ∈ uids)))).filter
          (fun p => decide (p.1 = gid))).map (fun p => p.2) =
        ((l.filter (fun p => decide (p.1 = gid))).map (fun p => p.2)).filter
          (fun u => decide (u ∉ uids)) := by
  intro l
  induction l with
  | nil => rfl
  | cons p rest ih =>
    by_cases hp : p.1 = gid
    · by_cases hm : p.2 ∈ uids
      · rw [List.filter_cons_of_neg (by simp [hp, hm]), ih,
          List.filter_cons_of_pos (by simp [hp]), List.map_cons,
          List.filter_cons_of_neg (by simp [hm])]
      · rw [List.filter_cons_of_pos (by simp [hp, hm]),
          List.filter_cons_of_pos (by simp [hp]),
          List.filter_cons_of_pos (by simp [hp]), List.map_cons, List.map_cons,
          List.filter_cons_of_pos (by simp [hm]), ih]
    · rw [List.filter_cons_of_pos (by simp [hp]),
        List.filter_cons_of_neg (by simp [hp]),
        List.filter_cons_of_neg (by simp [hp]), ih]

theorem get_winners_remove_winners (db : DB) (gid : Nat) (uids : List Nat) :
    get_winners (remove_winners db gid uids) gid =
      (get_winners db gid).filter (fun u => decide (u ∉ uids)) :=
  snd_filter_remove gid uids db.winners

/-- Inserting fresh distinct winner rows appends them in order. -/
theorem foldl_insertWinnerRows (gid : Nat) :
    ∀ (uids : List Nat) (ws : List (Nat × Nat)), uids.Nodup →
      (∀ u ∈ uids, (gid, u) ∉ ws) →
      uids.foldl (fun acc u => insertWinnerRows acc gid u) ws =
        ws ++ uids.map (fun u => (gid, u)) := by
  intro uids
  induction uids with
  | nil => intro ws _ _; simp
  | cons u rest ih =>
    intro ws hnd hnew
    rw [List.foldl_cons]
    have h1 : insertWinnerRows ws gid u = ws ++ [(gid, u)] := by
      unfold insertWinnerRows
      rw [if_neg (hnew u (List.mem_cons_self u rest))]
    rw [h1, ih (ws ++ [(gid, u)]) hnd.of_cons ?_, List.append_assoc, List.map_cons]
    rfl
    intro v hv
    rw [List.mem_append]
    rintro (hvw | hvu)
    · exact hnew v (List.mem_cons.mpr (Or.inr hv)) hvw
    · have : v = u := by simpa using hvu
      exact (List.nodup_cons.mp hnd).1 (this ▸ hv)

theorem get_winners_set_winners (db : DB) (gid : Nat) (uids : List Nat)
    (hnd : uids.Nodup) (hnew : ∀ u ∈ uids, u ∉ get_winners db gid) :
    get_winners (set_winners db gid uids) gid = get_winners db gid ++ uids := by
  have hnew' : ∀ u ∈ uids, (gid, u) ∉ db.winners := by
    intro u hu hmem
    exact hnew u hu (mem_get_winners.mpr hmem)
  show ((uids.foldl (fun acc u => insertWinnerRows acc gid u) db.winners).filter
      (fun p => decide (p.1 = gid))).map (fun p => p.2) = _
  rw [foldl_insertWinnerRows gid uids db.winners hnd hnew', List.filter_append,
    List.map_append]
  have hkeep : (uids.map (fun u => (gid, u))).filter (fun p => decide (p.1 = gid)) =
      uids.map (fun u => (gid, u)) := by
    apply List.filter_eq_self.mpr
    intro p hp
    obtain ⟨u, -, hu⟩ := List.mem_map.mp hp
    simp [← hu]
  rw [hkeep, List.map_map]
  show _ ++ uids.map (fun u => u) = _
  rw [List.map_id']
  rfl

/-- Every giveaway row carrying the updated id holds the written status
afterwards (the update itself is unconditional, source lines 318-325). -/
theorem status_after_set_giveaway_status (db : DB) (gid : Nat) (st : GStatus) :
    ∀ g2 ∈ (set_giveaway_status db gid st).giveaways, g2.id = gid → g2.status = st := by
  intro g2 hg2 hid
  obtain ⟨g0, hg0, hEq⟩ := List.mem_map.mp hg2
  by_cases h : g0.id = gid
  · rw [← hEq, if_pos h]
  · rw [← hEq, if_neg h]
    rw [← hEq, if_neg h] at hid
    exact absurd hid h

/-! ### Claim C7: the join eligibility gate -/

/-- C7: entry into a giveaway passes the eligibility gate of the Join
button if and only if the stored win count (0 when the row is absent) is
at most the guild-wide vouch count (0 when there are none); in particular
equal values permit entry (source lines 566-598). -/
theorem joinEligible_iff_wins_le_vouches (db : DB) (guild uid : Nat) :
    joinEligible db guild uid = true ↔ winsOf db guild uid ≤ vouchCountOf db guild uid := by
  unfold joinEligible
  by_cases h : vouchCountOf db guild uid < winsOf db guild uid
  · rw [if_pos h]
    constructor
    · intro hfalse; exact absurd hfalse (by simp)
    · intro hle; omega
  · rw [if_neg h]
    constructor
    · intro _; omega
    · intro _; rfl

/-- Concrete guild state at the boundary: one win balanced by one vouch. -/
def dbC7 : DB :=
  { giveaways := [], nextId := 1, entrants := [], winners := [],
    winCounts := [(10, 7, 1)], vouches := [(10, 7, 3)], vouchBlocks := [] }

/-- Witness for C7: at equal win and vouch counts the gate approves entry. -/
theorem joinEligible_iff_wins_le_vouches_witness : joinEligible dbC7 10 7 = true :=
  (joinEligible_iff_wins_le_vouches dbC7 10 7).mpr (by decide)

/-! ### Claim C1: the win-count aggregate invariant (code bug) -/

def gwC1a : Giveaway :=
  { id := 1, guildId := 10, channelId := 0, hostId := 0, prize := "a",
    winnersCount := 1, status := GStatus.ended }

def gwC1b : Giveaway :=
  { id := 2, guildId := 10, channelId := 0, hostId := 0, prize := "b",
    winnersCount := 1, status := GStatus.ended }

/-- Consistent state: user 7 holds exactly one winner record (giveaway 1)
in guild 10 and the aggregate stores one win. -/
def dbC1 : DB :=
  { giveaways := [gwC1a, gwC1b], nextId := 3, entrants := [], winners := [(1, 7)],
    winCounts := [(10, 7, 1)], vouches := [], vouchBlocks := [] }

/-- C1 (code bug): starting from a consistent state, one adjustWin(-1) on
giveaway 2 — whose winner set does not contain user 7 — reports success,
removes no winner record, yet decrements and prunes the aggregate: the
user still holds 1 winner record in guild 10 while win_counts reads 0, so
the claimed invariant is broken by an allowed operation sequence
(adjust_win_for_gw, source lines 489-502, deletes nothing but still runs
the guarded decrement). -/
theorem adjust_win_breaks_aggregate_invariant :
    WF dbC1 ∧
    user_wins_count dbC1 10 7 = 1 ∧ winsOf dbC1 10 7 = 1 ∧
    (adjust_win_for_gw dbC1 2 7 (-1)).1 = true ∧
    user_wins_count (adjust_win_for_gw dbC1 2 7 (-1)).2 10 7 = 1 ∧
    winsOf (adjust_win_for_gw dbC1 2 7 (-1)).2 10 7 = 0 := by
  decide

/-! ### Claim C3: the close status guard (code bug) -/

def gwC3 : Giveaway :=
  { id := 1, guildId := 10, channelId := 0, hostId := 0, prize := "p",
    winnersCount := 1, status := GStatus.ended }

/-- State in which giveaway 1 is already stored as ended (with an entrant
pool left over), as the loser of a close race observes it. -/
def dbC3 : DB :=
  { giveaways := [gwC3], nextId := 2, entrants := [(1, 7)], winners := [],
    winCounts := [], vouches := [], vouchBlocks := [] }

/-- C3 (code bug): close_giveaway contains no conditional status check at
all — invoked on a giveaway whose stored status is already ended it still
selects a winner, inserts the winner record, increments the win count and
rewrites the status (set_giveaway_status, lines 318-325, is an
unconditional UPDATE; close_giveaway, lines 627-638, never reads the
stored status). -/
theorem close_on_ended_giveaway_still_selects :
    fetch_giveaway dbC3 1 = some gwC3 ∧
    gwC3.status = GStatus.ended ∧
    dbC3.winners = [] ∧
    (close_giveaway takeSample dbC3 gwC3).1 = [7] ∧
    (close_giveaway takeSample dbC3 gwC3).2.winners = [(1, 7)] ∧
    winsOf (close_giveaway takeSample dbC3 gwC3).2 10 7 = 1 := by
  decide

/-! ### Claim C2: reroll exclusion across invocations (corrected) -/

def gwC2 : Giveaway :=
  { id := 1, guildId := 10, channelId := 0, hostId := 0, prize := "p",
    winnersCount := 1, status := GStatus.ended }

/-- Ended giveaway with entrants 1 and 2 and current winner 1. -/
def dbC2 : DB :=
  { giveaways := [gwC2], nextId := 2, entrants := [(1, 1), (1, 2)],
    winners := [(1, 1)], winCounts := [(10, 1, 1)], vouches := [], vouchBlocks := [] }

/-- Counterexample to C2: the exclusion set of a reroll is only the winner
set read at the start of that invocation, not the all-time winner history.
Reroll 1 removes winner 1 and draws 2; reroll 2 removes 2, and its pool
is entrants minus the then-current winner set, which contains user 1
again — every pool along the way is a singleton, so any sampler meeting
the random.sample contract makes these draws.  User 1, a historical
winner, is re-selected by a later reroll. -/
theorem reroll_reselects_historical_winner :
    1 ∈ get_winners dbC2 1 ∧
    (reroll takeSample dbC2 10 1 (some 1) none).1 = RerollResult.rerolled [1] [2] ∧
    1 ∉ get_winners (reroll takeSample dbC2 10 1 (some 1) none).2 1 ∧
    (reroll takeSample (reroll takeSample dbC2 10 1 (some 1) none).2 10 1 (some 1) none).1 =
      RerollResult.rerolled [2] [1] ∧
    1 ∈ get_winners
        (reroll takeSample (reroll takeSample dbC2 10 1 (some 1) none).2 10 1 (some 1) none).2
        1 := by
  decide

/-! ### Claim C4: winner-set bounds (corrected) -/

def gwC4 : Giveaway :=
  { id := 1, guildId := 10, channelId := 0, hostId := 0, prize := "p",
    winnersCount := 1, status := GStatus.ended }

def dbC4 : DB :=
  { giveaways := [gwC4], nextId := 2, entrants := [], winners := [],
    winCounts := [], vouches := [], vouchBlocks := [] }

/-- Counterexample to C4: two adjustWin(+1) calls on a giveaway with
winners_requested 1 leave it with 2 winner records, and the records name
users who never were entrants — the bounds do not hold at every reachable
state (adjust_win_for_gw, lines 474-487, inserts without any bound or
entrant check). -/
theorem adjust_win_exceeds_winner_bounds :
    gwC4.winnersCount = 1 ∧
    get_winners ((adjust_win_for_gw ((adjust_win_for_gw dbC4 1 7 1).2) 1 8 1).2) 1 = [7, 8] ∧
    (get_winners ((adjust_win_for_gw ((adjust_win_for_gw dbC4 1 7 1).2) 1 8 1).2) 1).length = 2 ∧
    7 ∉ get_entrants ((adjust_win_for_gw ((adjust_win_for_gw dbC4 1 7 1).2) 1 8 1).2) 1 := by
  decide

/-! ### Claim C8: the selection step of close -/

/-- C8: for any sampler meeting the random.sample contract, close selects
exactly min(winners_count, |pool|) distinct users from the entrant pool;
an empty pool or a zero count yields an empty selection and no error; and
the rows of the giveaway always carry status ended afterwards, pool empty
or not (close_giveaway, lines 627-638).  Uniform subset probability is
part of the random.sample contract the sampler parameter abstracts. -/
theorem close_giveaway_selection_spec (sample : List Nat → Nat → List Nat)
    (hs : SampleOk sample) (db : DB) (g : Giveaway) (hnd : db.entrants.Nodup) :
    (close_giveaway sample db g).1.length =
        min g.winnersCount (get_entrants db g.id).length ∧
    (close_giveaway sample db g).1.Nodup ∧
    (∀ u ∈ (close_giveaway sample db g).1, u ∈ get_entrants db g.id) ∧
    (get_entrants db g.id = [] → (close_giveaway sample db g).1 = []) ∧
    (g.winnersCount = 0 → (close_giveaway sample db g).1 = []) ∧
    (∀ g2 ∈ (close_giveaway sample db g).2.giveaways, g2.id = g.id →
      g2.status = GStatus.ended) := by
  have hend := nodup_get_entrants hnd g.id
  by_cases he : (get_entrants db g.id).isEmpty = true
  · have he' : get_entrants db g.id = [] := by simpa using he
    simp only [close_giveaway, if_pos he]
    refine ⟨by simp [he'], by simp, by simp, fun _ => trivial, fun _ => trivial, ?_⟩
    exact status_after_set_giveaway_status db g.id GStatus.ended
  · obtain ⟨hlen, hnodup, hmem⟩ :=
      hs (get_entrants db g.id) (min g.winnersCount (get_entrants db g.id).length) hend
    simp only [close_giveaway, if_neg he]
    refine ⟨by rw [hlen]; omega, hnodup, hmem, ?_, ?_, ?_⟩
    · intro h0
      exact absurd (by simp [h0] : (get_entrants db g.id).isEmpty = true) he
    · intro hw0
      rw [← List.length_eq_zero, hlen]
      omega
    · exact status_after_set_giveaway_status _ g.id GStatus.ended

def gwC8 : Giveaway :=
  { id := 1, guildId := 10, channelId := 0, hostId := 0, prize := "p",
    winnersCount := 2, status := GStatus.running }

def dbC8 : DB :=
  { giveaways := [gwC8], nextId := 2, entrants := [(1, 1), (1, 2), (1, 3)],
    winners := [], winCounts := [], vouches := [], vouchBlocks := [] }

/-- Witness for C8 at a concrete running giveaway with three entrants. -/
theorem close_giveaway_selection_spec_witness :
    dbC8.entrants.Nodup ∧
    ((close_giveaway takeSample dbC8 gwC8).1.length =
        min gwC8.winnersCount (get_entrants dbC8 gwC8.id).length ∧
    (close_giveaway takeSample dbC8 gwC8).1.Nodup ∧
    (∀ u ∈ (close_giveaway takeSample dbC8 gwC8).1, u ∈ get_entrants dbC8 gwC8.id) ∧
    (get_entrants dbC8 gwC8.id = [] → (close_giveaway takeSample dbC8 gwC8).1 = []) ∧
    (gwC8.winnersCount = 0 → (close_giveaway takeSample dbC8 gwC8).1 = []) ∧
    (∀ g2 ∈ (close_giveaway takeSample dbC8 gwC8).2.giveaways, g2.id = gwC8.id →
      g2.status = GStatus.ended)) :=
  ⟨by decide, close_giveaway_selection_spec takeSample takeSample_ok dbC8 gwC8 (by decide)⟩

/-- C4 amended: the bounds do hold for the winner records produced by the
selection step — close on a giveaway with no prior winner records leaves
at most winners_requested records, all naming entrants at selection time.
Manual adjustment bypasses both bounds (see the counterexample). -/
theorem close_giveaway_respects_bounds (sample : List Nat → Nat → List Nat)
    (hs : SampleOk sample) (db : DB) (g : Giveaway) (hnd : db.entrants.Nodup)
    (hempty : get_winners db g.id = []) :
    (get_winners (close_giveaway sample db g).2 g.id).length ≤ g.winnersCount ∧
    ∀ u ∈ get_winners (close_giveaway sample db g).2 g.id, u ∈ get_entrants db g.id := by
  have hend := nodup_get_entrants hnd g.id
  by_cases he : (get_entrants db g.id).isEmpty = true
  · simp only [close_giveaway, if_pos he]
    have hsame : get_winners (set_giveaway_status db g.id GStatus.ended) g.id =
        get_winners db g.id := rfl
    rw [hsame, hempty]
    exact ⟨by simp, by simp⟩
  · obtain ⟨hlen, hnodup, hmem⟩ :=
      hs (get_entrants db g.id) (min g.winnersCount (get_entrants db g.id).length) hend
    simp only [close_giveaway, if_neg he]
    have hsame : get_winners
        (set_giveaway_status
          (increment_win_counts
            (set_winners db g.id
              (sample (get_entrants db g.id)
                (min g.winnersCount (get_entrants db g.id).length)))
            g.guildId
            (sample (get_entrants db g.id)
              (min g.winnersCount (get_entrants db g.id).length)))
          g.id GStatus.ended) g.id =
        get_winners
          (set_winners db g.id
            (sample (get_entrants db g.id)
              (min g.winnersCount (get_entrants db g.id).length))) g.id := rfl
    rw [hsame, get_winners_set_winners db g.id _ hnodup
      (fun u _ => by rw [hempty]; exact List.not_mem_nil u), hempty, List.nil_append]
    constructor
    · rw [hlen]; omega
    · exact hmem

def gwC4w : Giveaway :=
  { id := 1, guildId := 10, channelId := 0, hostId := 0, prize := "p",
    winnersCount := 2, status := GStatus.running }

def dbC4w : DB :=
  { giveaways := [gwC4w], nextId := 2, entrants := [(1, 1), (1, 2), (1, 3)],
    winners := [], winCounts := [], vouches := [], vouchBlocks := [] }

/-- Witness for the amended C4 at a concrete close invocation. -/
theorem close_giveaway_respects_bounds_witness :
    dbC4w.entrants.Nodup ∧ get_winners dbC4w gwC4w.id = [] ∧
    ((get_winners (close_giveaway takeSample dbC4w gwC4w).2 gwC4w.id).length ≤
        gwC4w.winnersCount ∧
    ∀ u ∈ get_winners (close_giveaway takeSample dbC4w gwC4w).2 gwC4w.id,
      u ∈ get_entrants dbC4w gwC4w.id) :=
  ⟨by decide, by decide,
    close_giveaway_respects_bounds takeSample takeSample_ok dbC4w gwC4w
      (by decide) (by decide)⟩

/-! ### Claim C10: the manual winner operation -/

/-- C10: when a giveaway of the guild with the same prize text already
exists, the manual-winner operation reuses the first such giveaway and
creates no new row; it increments the user's win count by one
unconditionally; and when the winner record already exists the winner
table is left unchanged — so repetition grows the count but not the
winner set (add_manual_giveaway_with_winner, lines 263-314). -/
theorem add_manual_reuses_giveaway_and_always_increments (db : DB) (guild : Nat)
    (prize : String) (uid : Nat) (g0 : Giveaway)
    (hfind : db.giveaways.find?
      (fun g => decide (g.guildId = guild ∧ g.prize = prize)) = some g0) :
    (add_manual_giveaway_with_winner db guild prize uid).1 = g0.id ∧
    (add_manual_giveaway_with_winner db guild prize uid).2.giveaways = db.giveaways ∧
    winsOf (add_manual_giveaway_with_winner db guild prize uid).2 guild uid =
      winsOf db guild uid + 1 ∧
    ((g0.id, uid) ∈ db.winners →
      (add_manual_giveaway_with_winner db guild prize uid).2.winners = db.winners) := by
  simp only [add_manual_giveaway_with_winner, hfind]
  refine ⟨trivial, trivial, ?_, ?_⟩
  · exact lookupWins_incrementRows_self db.winCounts guild uid
  · intro hmem
    show insertWinnerRows db.winners g0.id uid = db.winners
    unfold insertWinnerRows
    rw [if_pos hmem]

def gwC10 : Giveaway :=
  { id := 1, guildId := 10, channelId := 0, hostId := 0, prize := "a",
    winnersCount := 1, status := GStatus.ended }

/-- State produced by one earlier manual call: giveaway present, winner
record present, one counted win. -/
def dbC10 : DB :=
  { giveaways := [gwC10], nextId := 2, entrants := [], winners := [(1, 7)],
    winCounts := [(10, 7, 1)], vouches := [], vouchBlocks := [] }

/-- Witness for C10: repeating the manual call grows the count to 2 while
the giveaway and winner tables stay as they were. -/
theorem add_manual_reuses_giveaway_witness :
    (add_manual_giveaway_with_winner dbC10 10 "a" 7).1 = gwC10.id ∧
    (add_manual_giveaway_with_winner dbC10 10 "a" 7).2.giveaways = dbC10.giveaways ∧
    winsOf (add_manual_giveaway_with_winner dbC10 10 "a" 7).2 10 7 = winsOf dbC10 10 7 + 1 ∧
    (add_manual_giveaway_with_winner dbC10 10 "a" 7).2.winners = dbC10.winners := by
  obtain ⟨h1, h2, h3, h4⟩ :=
    add_manual_reuses_giveaway_and_always_increments dbC10 10 "a" 7 gwC10 (by decide)
  exact ⟨h1, h2, h3, h4 (by decide)⟩

/-! ### Claim C9: delete -/

/-- delete on an absent giveaway id reports failure and leaves the whole
state unchanged (delete_giveaway, lines 337-339). -/
theorem delete_giveaway_of_absent {db : DB} {gid : Nat}
    (h : fetch_giveaway db gid = none) : delete_giveaway db gid = (false, db) := by
  unfold delete_giveaway
  rw [h]

/-- C9: delete on an existing giveaway reports success and, in one state
transition, removes the giveaway row together with its entrant and winner
rows (cascade), explicitly removes its vouches and vouch blocks, and
decrements each recorded winner's win count by exactly one (floored at
zero through row pruning) while leaving every other user's count in that
guild unchanged; afterwards the id is absent, so a repeat delete reports
failure and changes nothing (delete_giveaway, lines 328-375, one
transaction). -/
theorem delete_giveaway_spec (db : DB) (gid : Nat) (hWF : WF db) :
    (fetch_giveaway db gid = none → delete_giveaway db gid = (false, db)) ∧
    ∀ g, fetch_giveaway db gid = some g →
      (delete_giveaway db gid).1 = true ∧
      fetch_giveaway (delete_giveaway db gid).2 gid = none ∧
      delete_giveaway (delete_giveaway db gid).2 gid = (false, (delete_giveaway db gid).2) ∧
      (delete_giveaway db gid).2.entrants =
        db.entrants.filter (fun p => decide (¬(p.1 = gid))) ∧
      (delete_giveaway db gid).2.winners =
        db.winners.filter (fun p => decide (¬(p.1 = gid))) ∧
      (delete_giveaway db gid).2.vouches =
        db.vouches.filter (fun v => decide (¬(v.2.2 = gid))) ∧
      (delete_giveaway db gid).2.vouchBlocks =
        db.vouchBlocks.filter (fun v => decide (¬(v.2.2 = gid))) ∧
      (∀ u ∈ get_winners db gid,
        winsOf (delete_giveaway db gid).2 g.guildId u = winsOf db g.guildId u - 1) ∧
      (∀ u, u ∉ get_winners db gid →
        winsOf (delete_giveaway db gid).2 g.guildId u = winsOf db g.guildId u) := by
  refine ⟨fun h => delete_giveaway_of_absent h, ?_⟩
  intro g hg
  have hrun : delete_giveaway db gid =
      (true,
       { db with
         giveaways := db.giveaways.filter (fun g2 => decide (¬(g2.id = gid))),
         entrants := db.entrants.filter (fun p => decide (¬(p.1 = gid))),
         winners := db.winners.filter (fun p => decide (¬(p.1 = gid))),
         vouches := db.vouches.filter (fun v => decide (¬(v.2.2 = gid))),
         vouchBlocks := db.vouchBlocks.filter (fun v => decide (¬(v.2.2 = gid))),
         winCounts :=
           pruneGuildZeros
             ((get_winners db gid).foldl (fun rs u => decrementRows rs g.guildId u)
               db.winCounts) g.guildId }) := by
    unfold delete_giveaway
    rw [hg]
  have hfetch : fetch_giveaway (delete_giveaway db gid).2 gid = none := by
    rw [hrun]
    show List.find? (fun g2 => decide (g2.id = gid))
      (db.giveaways.filter (fun g2 => decide (¬(g2.id = gid)))) = none
    apply List.find?_eq_none.mpr
    intro g2 hg2
    have hne := (List.mem_filter.mp hg2).2
    simp only [decide_eq_true_eq] at hne ⊢
    exact hne
  have hkeys : (countKeys
      ((get_winners db gid).foldl (fun rs u => decrementRows rs g.guildId u)
        db.winCounts)).Nodup := by
    rw [countKeys_decrementMany]
    exact hWF.2.2.1
  have hwnd : (get_winners db gid).Nodup := nodup_get_winners hWF.2.1 gid
  refine ⟨by rw [hrun], hfetch, delete_giveaway_of_absent hfetch,
    by rw [hrun], by rw [hrun], by rw [hrun], by rw [hrun], ?_, ?_⟩
  · intro u hu
    rw [hrun]
    show lookupWins
        (pruneGuildZeros
          ((get_winners db gid).foldl (fun rs u => decrementRows rs g.guildId u)
            db.winCounts) g.guildId) g.guildId u =
      lookupWins db.winCounts g.guildId u - 1
    rw [lookupWins_pruneGuildZeros g.guildId _ hkeys g.guildId u,
      lookupWins_decrementMany g.guildId (get_winners db gid) db.winCounts u hwnd,
      if_pos hu]
  · intro u hu
    rw [hrun]
    show lookupWins
        (pruneGuildZeros
          ((get_winners db gid).foldl (fun rs u => decrementRows rs g.guildId u)
            db.winCounts) g.guildId) g.guildId u =
      lookupWins db.winCounts g.guildId u
    rw [lookupWins_pruneGuildZeros g.guildId _ hkeys g.guildId u,
      lookupWins_decrementMany g.guildId (get_winners db gid) db.winCounts u hwnd,
      if_neg hu]

def gwC9a : Giveaway :=
  { id := 1, guildId := 10, channelId := 0, hostId := 0, prize := "a",
    winnersCount := 2, status := GStatus.ended }

def gwC9b : Giveaway :=
  { id := 2, guildId := 10, channelId := 0, hostId := 0, prize := "b",
    winnersCount := 1, status := GStatus.ended }

/-- Giveaway 1 with two recorded winners (counts 2 and 1), an entrant, a
vouch and a vouch block tied to it. -/
def dbC9 : DB :=
  { giveaways := [gwC9a, gwC9b], nextId := 3, entrants := [(1, 5)],
    winners := [(1, 5), (1, 6)], winCounts := [(10, 5, 2), (10, 6, 1)],
    vouches := [(10, 5, 1)], vouchBlocks := [(10, 6, 1)] }

/-- Witness for C9: deleting giveaway 1 decrements both winners (pruning
the one that reaches zero), clears its vouch and vouch-block rows, leaves
a bystander's count alone, and a repeat delete fails without change. -/
theorem delete_giveaway_spec_witness :
    (delete_giveaway dbC9 1).1 = true ∧
    fetch_giveaway (delete_giveaway dbC9 1).2 1 = none ∧
    delete_giveaway (delete_giveaway dbC9 1).2 1 = (false, (delete_giveaway dbC9 1).2) ∧
    (delete_giveaway dbC9 1).2.vouches =
      dbC9.vouches.filter (fun v => decide (¬(v.2.2 = 1))) ∧
    (delete_giveaway dbC9 1).2.vouchBlocks =
      dbC9.vouchBlocks.filter (fun v => decide (¬(v.2.2 = 1))) ∧
    winsOf (delete_giveaway dbC9 1).2 10 5 = winsOf dbC9 10 5 - 1 ∧
    winsOf (delete_giveaway dbC9 1).2 10 6 = winsOf dbC9 10 6 - 1 ∧
    winsOf (delete_giveaway dbC9 1).2 10 9 = winsOf dbC9 10 9 := by
  obtain ⟨-, hsome⟩ := delete_giveaway_spec dbC9 1 (by decide)
  obtain ⟨h1, h2, h3, -, -, h6, h7, hwin, hother⟩ := hsome gwC9a (by decide)
  exact ⟨h1, h2, h3, h6, h7, hwin 5 (by decide), hwin 6 (by decide), hother 9 (by decide)⟩

/-! ### Claims C5, C6 and the amended C2: reroll -/

/-- After reroll's removal step, none of the removed users is a winner of
the giveaway any more, whatever else happens later in the invocation. -/
theorem removed_not_winner_after_removal (db : DB) (gid : Nat) (toRemove : List Nat)
    (guild : Nat) :
    ∀ u ∈ toRemove,
      u ∉ get_winners (decrement_win_counts (remove_winners db gid toRemove) guild toRemove)
        gid := by
  intro u hu hmem
  have hmem2 : u ∈ (get_winners db gid).filter (fun v => decide (v ∉ toRemove)) := by
    rw [← get_winners_remove_winners]
    exact hmem
  have hnot := (List.mem_filter.mp hmem2).2
  simp only [decide_eq_true_eq] at hnot
  exact hnot hu

/-- C5: when reroll fails with NoEntrants or NoEligiblePool, the final
state is exactly the state left by the removal step — the removed winner
rows and the win-count decrements stay committed, nothing is rolled back,
and the failure itself is the reported result (GWGroup.reroll, lines
908-919: remove_winners and decrement_win_counts have already committed
before the entrant and pool checks run). -/
theorem reroll_failure_keeps_removal (sample : List Nat → Nat → List Nat)
    (db : DB) (guild gid : Nat) (count : Option Int) (target : Option Nat)
    (g : Giveaway) (toRemove : List Nat)
    (hg : fetch_giveaway db gid = some g) (hguild : g.guildId = guild)
    (hst : g.status = GStatus.ended) (hprev : ¬ get_winners db gid = [])
    (htr : rerollTargets (get_winners db gid) count target = some toRemove)
    (r : RerollResult) (db' : DB)
    (hrun : reroll sample db guild gid count target = (r, db'))
    (hfail : r = RerollResult.noEntrants ∨ r = RerollResult.noEligiblePool) :
    db' = decrement_win_counts (remove_winners db gid toRemove) guild toRemove ∧
    ∀ u ∈ toRemove, u ∉ get_winners db' gid := by
  simp only [reroll, hg, htr, hguild, hst] at hrun
  rw [if_neg (by simp)] at hrun
  rw [if_neg (by simp)] at hrun
  rw [if_neg (by simpa using hprev)] at hrun
  by_cases hent :
      (get_entrants (decrement_win_counts (remove_winners db gid toRemove) guild toRemove)
        gid).isEmpty = true
  · rw [if_pos hent] at hrun
    injection hrun with h1 h2
    subst h2
    exact ⟨rfl, removed_not_winner_after_removal db gid toRemove guild⟩
  · rw [if_neg hent] at hrun
    by_cases hpool :
        ((get_entrants (decrement_win_counts (remove_winners db gid toRemove) guild toRemove)
          gid).filter (fun u => decide (u ∉ get_winners db gid))).isEmpty = true
    · rw [if_pos hpool] at hrun
      injection hrun with h1 h2
      subst h2
      exact ⟨rfl, removed_not_winner_after_removal db gid toRemove guild⟩
    · rw [if_neg hpool] at hrun
      injection hrun with h1 h2
      rcases hfail with h | h <;> rw [← h1] at h <;> exact RerollResult.noConfusion h

def gwC5 : Giveaway :=
  { id := 1, guildId := 10, channelId := 0, hostId := 0, prize := "p",
    winnersCount := 1, status := GStatus.ended }

/-- Ended giveaway whose entrant rows are gone but with one winner left. -/
def dbC5 : DB :=
  { giveaways := [gwC5], nextId := 2, entrants := [], winners := [(1, 5)],
    winCounts := [(10, 5, 1)], vouches := [], vouchBlocks := [] }

/-- Witness for C5 at the concrete NoEntrants failure. -/
theorem reroll_failure_keeps_removal_witness :
    (reroll takeSample dbC5 10 1 (some 1) none).2 =
      decrement_win_counts (remove_winners dbC5 1 [5]) 10 [5] ∧
    ∀ u ∈ ([5] : List Nat),
      u ∉ get_winners (reroll takeSample dbC5 10 1 (some 1) none).2 1 :=
  reroll_failure_keeps_removal takeSample dbC5 10 1 (some 1) none gwC5 [5]
    (by decide) (by decide) (by decide) (by decide) (by decide)
    RerollResult.noEntrants (reroll takeSample dbC5 10 1 (some 1) none).2
    (by decide) (Or.inl rfl)

/-- Python's list(set(...)) as the reroll handler applies it to the
duplicate-free winner list (line 891): a CPython set of distinct ints
iterates in hash-slot order — for distinct ids below 8 (identity hashes,
8-slot initial table) that is ascending id order — never the row
insertion order.  Modelled as the ascending sort of the deduplicated
list, exact for small ids. -/
def pySetList (l : List Nat) : List Nat :=
  List.insertionSort (fun a b => a ≤ b) l.dedup

/-- The set round-trip changes presentation order only: membership is
preserved.  This is why reroll's NotAWinner check and pool exclusion are
insensitive to it. -/
theorem mem_pySetList {l : List Nat} {u : Nat} : u ∈ pySetList l ↔ u ∈ l := by
  unfold pySetList
  rw [List.mem_insertionSort, List.mem_dedup]

theorem pySetList_ne_nil {l : List Nat} (h : ¬ l = []) : ¬ pySetList l = [] := by
  intro h0
  unfold pySetList at h0
  have hlen := List.length_insertionSort (fun a b : Nat => a ≤ b) l.dedup
  rw [h0] at hlen
  exact h ((List.dedup_eq_nil l).mp (List.length_eq_zero.mp hlen.symm))

/-- The removal-set computation of reroll including the set round-trip:
prev_winners = list(set(get_winners(...))) (line 891), then the target
check or the tail slice with the clamped count (lines 899-906). -/
def rerollTargetsPy (winnerRows : List Nat) (count : Option Int)
    (target : Option Nat) : Option (List Nat) :=
  rerollTargets (pySetList winnerRows) count target

def gwC6 : Giveaway :=
  { id := 1, guildId := 10, channelId := 0, hostId := 0, prize := "p",
    winnersCount := 2, status := GStatus.ended }

/-- Ended giveaway whose winner rows were inserted as user 3 first, then
user 1. -/
def dbC6 : DB :=
  { giveaways := [gwC6], nextId := 2, entrants := [(1, 3), (1, 1)],
    winners := [(1, 3), (1, 1)], winCounts := [(10, 3, 1), (10, 1, 1)],
    vouches := [], vouchBlocks := [] }

/-- Counterexample to C6: winner rows inserted in the order 3, then 1.
The last removeCount = 1 winners in insertion order would be [1], but the
handler slices the tail of list(set(...)) — hash order, here ascending —
and so removes [3], the first-inserted winner: the removal set is not
the last removeCount winners in insertion order. -/
theorem reroll_removes_first_inserted_winner :
    get_winners dbC6 1 = [3, 1] ∧
    (get_winners dbC6 1).drop ((get_winners dbC6 1).length - 1) = [1] ∧
    pySetList (get_winners dbC6 1) = [1, 3] ∧
    rerollTargetsPy (get_winners dbC6 1) (some 1) none = some [3] ∧
    ¬ ([3] : List Nat) = [1] := by
  decide

/-- C6 amended: without a target user the removal set is the last k
elements of the previous-winner list as the list(set(...)) round-trip
presents it — hash order, modelled as ascending id, not insertion
order — where k clamps the requested count to [1, |winners|]; every
removed user is a recorded winner, and removal leaves exactly the
recorded winners outside the removal set.  With a target user that is
not a recorded winner, reroll reports NotAWinner and changes nothing
(GWGroup.reroll, lines 891, 899-906). -/
theorem reroll_removal_clamped_hash_order (db : DB) (guild gid : Nat)
    (count : Option Int) (t : Nat) (g : Giveaway)
    (hg : fetch_giveaway db gid = some g) (hguild : g.guildId = guild)
    (hst : g.status = GStatus.ended)
    (hprev : ¬ get_winners db gid = []) :
    (∃ k,
      k = (max 1 (match count with
            | none => (1 : Int)
            | some c => if c = 0 then 1 else c)).toNat ⊓
          (pySetList (get_winners db gid)).length ∧
      1 ≤ k ∧ k ≤ (pySetList (get_winners db gid)).length ∧
      rerollTargetsPy (get_winners db gid) count none =
        some ((pySetList (get_winners db gid)).drop
          ((pySetList (get_winners db gid)).length - k)) ∧
      (∀ u ∈ (pySetList (get_winners db gid)).drop
          ((pySetList (get_winners db gid)).length - k),
        u ∈ get_winners db gid) ∧
      get_winners
          (remove_winners db gid
            ((pySetList (get_winners db gid)).drop
              ((pySetList (get_winners db gid)).length - k))) gid =
        (get_winners db gid).filter
          (fun u => decide (u ∉ (pySetList (get_winners db gid)).drop
            ((pySetList (get_winners db gid)).length - k)))) ∧
    (∀ sample, t ∉ get_winners db gid →
      reroll sample db guild gid count (some t) = (RerollResult.notAWinner, db)) := by
  constructor
  · refine ⟨_, rfl, ?_, Nat.min_le_right _ _, rfl, ?_,
      get_winners_remove_winners db gid _⟩
    · have hne : ¬ pySetList (get_winners db gid) = [] := pySetList_ne_nil hprev
      have hlen : 1 ≤ (pySetList (get_winners db gid)).length :=
        List.length_pos.mpr hne
      have hmax : (1 : Int) ≤ max 1 (match count with
          | none => (1 : Int)
          | some c => if c = 0 then 1 else c) := le_max_left _ _
      have h1 : 1 ≤ (max 1 (match count with
          | none => (1 : Int)
          | some c => if c = 0 then 1 else c)).toNat :=
        Int.toNat_le_toNat hmax
      exact Nat.le_min.mpr ⟨h1, hlen⟩
    · intro u hu
      exact mem_pySetList.mp (List.drop_subset _ _ hu)
  · intro sample ht
    have htr : rerollTargets (get_winners db gid) count (some t) = none := by
      show (if t ∈ get_winners db gid then some [t] else none) = none
      rw [if_neg ht]
    simp only [reroll, hg, htr, hguild, hst]
    rw [if_neg (by simp), if_neg (by simp), if_neg (by simpa using hprev)]

/-- Witness for the amended C6: requesting 1 removes [3], the tail of the
hash-ordered presentation [1, 3]; removal keeps winner 1; a reroll
targeting non-winner 9 reports NotAWinner unchanged. -/
theorem reroll_removal_clamped_hash_order_witness :
    rerollTargetsPy (get_winners dbC6 1) (some 1) none = some [3] ∧
    get_winners (remove_winners dbC6 1 [3]) 1 = [1] ∧
    reroll takeSample dbC6 10 1 (some 1) (some 9) = (RerollResult.notAWinner, dbC6) := by
  obtain ⟨-, hnaw⟩ :=
    reroll_removal_clamped_hash_order dbC6 10 1 (some 1) 9 gwC6
      (by decide) (by decide) (by decide) (by decide)
  exact ⟨by decide, by decide, hnaw takeSample (by decide)⟩

/-- C2 amended: within one invocation the pool is the entrant set minus
the winner set as read at the start of that invocation (which contains
the winners just removed in the same invocation and the winners kept), so
no current or just-removed winner is re-selected by that invocation.
Winners removed by earlier rerolls no longer appear in the winner table
and are not excluded (see the counterexample). -/
theorem reroll_new_winners_excluded_from_current (sample : List Nat → Nat → List Nat)
    (hs : SampleOk sample) (db : DB) (guild gid : Nat)
    (count : Option Int) (target : Option Nat) (hnd : db.entrants.Nodup)
    (rem add : List Nat) (db' : DB)
    (hrun : reroll sample db guild gid count target =
      (RerollResult.rerolled rem add, db')) :
    ∀ u ∈ add, u ∈ get_entrants db gid ∧ u ∉ get_winners db gid := by
  unfold reroll at hrun
  cases hfetch : fetch_giveaway db gid with
  | none =>
    rw [hfetch] at hrun
    injection hrun with h1 h2
    exact RerollResult.noConfusion h1
  | some g =>
    rw [hfetch] at hrun
    simp only at hrun
    by_cases hgld : g.guildId ≠ guild
    · rw [if_pos hgld] at hrun
      injection hrun with h1 h2
      exact RerollResult.noConfusion h1
    · rw [if_neg hgld] at hrun
      by_cases hst : g.status ≠ GStatus.ended
      · rw [if_pos hst] at hrun
        injection hrun with h1 h2
        exact RerollResult.noConfusion h1
      · rw [if_neg hst] at hrun
        by_cases hprev : (get_winners db gid).isEmpty = true
        · rw [if_pos hprev] at hrun
          injection hrun with h1 h2
          exact RerollResult.noConfusion h1
        · rw [if_neg hprev] at hrun
          cases htr : rerollTargets (get_winners db gid) count target with
          | none =>
            rw [htr] at hrun
            injection hrun with h1 h2
            exact RerollResult.noConfusion h1
          | some toRemove =>
            rw [htr] at hrun
            simp only at hrun
            by_cases hent :
                (get_entrants
                  (decrement_win_counts (remove_winners db gid toRemove) g.guildId toRemove)
                  gid).isEmpty = true
            · rw [if_pos hent] at hrun
              injection hrun with h1 h2
              exact RerollResult.noConfusion h1
            · rw [if_neg hent] at hrun
              by_cases hpool :
                  ((get_entrants
                    (decrement_win_counts (remove_winners db gid toRemove) g.guildId toRemove)
                    gid).filter (fun u => decide (u ∉ get_winners db gid))).isEmpty = true
              · rw [if_pos hpool] at hrun
                injection hrun with h1 h2
                exact RerollResult.noConfusion h1
              · rw [if_neg hpool] at hrun
                injection hrun with h1 h2
                injection h1 with hrem hadd
                intro u hu
                rw [← hadd] at hu
                have hpnd :
                    ((get_entrants
                      (decrement_win_counts (remove_winners db gid toRemove) g.guildId toRemove)
                      gid).filter (fun u => decide (u ∉ get_winners db gid))).Nodup :=
                  (nodup_get_entrants hnd gid).filter _
                have hup := (hs _ _ hpnd).2.2 u hu
                have hsplit := List.mem_filter.mp hup
                refine ⟨hsplit.1, ?_⟩
                have := hsplit.2
                simpa using this

/-- Witness for the amended C2: in the first reroll on the concrete state
the replacement winner 2 is an entrant and was not a winner at the start
of the invocation. -/
theorem reroll_new_winners_excluded_witness :
    2 ∈ get_entrants dbC2 1 ∧ 2 ∉ get_winners dbC2 1 :=
  reroll_new_winners_excluded_from_current takeSample takeSample_ok dbC2 10 1
    (some 1) none (by decide) [1] [2] (reroll takeSample dbC2 10 1 (some 1) none).2
    (by decide) 2 (by decide)

end GiveawayBot
